import Mathlib

/-!
Verification of the lina order-query backend (src/server.js).

The file embeds, as executable Lean definitions, the pieces of the program
the claims are about:

* the `orders` resolver's filter-to-MongoDB-query translation
  (src/server.js lines 85-136), including its JavaScript truthiness guards
  and the `TypeError` thrown when an end bound is written onto a range
  object that was never created;
* the sanitization pipeline of `generateGraphQLQuery`
  (src/server.js lines 200-210): `trim`, the two fence `replace`s and the
  newline `replace`, modelled as operations on lists of characters;
* the `/generate-query` and `/fetch-orders` Express handlers
  (src/server.js lines 152-168 and 217-249), as pure functions of the
  request body and of the outcomes of the external calls they make.

The document store (MongoDB behind the absent `models/order.model` file) is
an external collaborator; its evaluation of the generated query object on a
stored order is modelled from the spec's store-interface assumptions
(equality, case-insensitive regex as substring, range, set membership).
-/

deriving instance DecidableEq for Except

namespace Lina

/-- The `Status` enum of the GraphQL schema (src/server.js lines 16-24).
`open` is a Lean keyword, so that constructor is spelled `open_`. -/
inductive Status where
  | open_
  | closed
  | picking
  | picked
  | packed
  | shipped
  | cancelled
deriving DecidableEq

/-- One element of `order.items` (schema type `Item`, src/server.js lines 39-44). -/
structure Item where
  sku : String
  name : String
  total_qty : Int
  remaining_qty : Int

/-- Schema type `ShippingAddress` (src/server.js lines 26-37). -/
structure ShippingAddress where
  verified : Bool
  name : String
  company : String
  address_line1 : String
  city : String
  state : String
  state_code : String
  country : String
  country_code : String
  zip : String

/-- Schema type `Shipment` (src/server.js lines 46-51). -/
structure Shipment where
  shipment_id : String
  carrier : String
  service : String
  tracking_number : String

/-- A stored order document (schema type `Order`, src/server.js lines 53-63).
The timestamps are modelled as the store's date values: a `Nat` for
`created_at`, and an optional `Nat` for the nullable `closed_at`. -/
structure Order where
  id : String
  client_name : String
  code : Int
  status : Status
  created_at : Nat
  closed_at : Option Nat
  shipping_address : Option ShippingAddress
  items : List Item
  shipments : List Shipment

/-- The `FilterInput` GraphQL input object (src/server.js lines 65-73).
Every field is optional; `none` is an absent field / JavaScript `undefined`. -/
structure FilterInput where
  client_name : Option String := none
  status : Option (List Status) := none
  created_at_start : Option String := none
  created_at_end : Option String := none
  closed_at_start : Option String := none
  closed_at_end : Option String := none
  item_name : Option String := none
deriving DecidableEq

/-- JavaScript truthiness of an optional string, as used by the resolver's
`if (filter.client_name)` style guards: `undefined`, `null` and the empty
string are falsy, every other string is truthy. -/
def jsTruthyStr : Option String → Bool
  | none => false
  | some s => !(s == "")

/-- Number of days in a month, proleptic Gregorian, as ECMAScript date
parsing validates the day component of a `YYYY-MM-DD` string. -/
def daysInMonth (y m : Nat) : Nat :=
  if m = 2 then
    if y % 4 = 0 ∧ (y % 100 ≠ 0 ∨ y % 400 = 0) then 29 else 28
  else if m = 4 ∨ m = 6 ∨ m = 9 ∨ m = 11 then 30 else 31

/-- Value of a decimal digit character, `none` for a non-digit. -/
def digitVal (c : Char) : Option Nat :=
  if c.isDigit then some (c.toNat - 48) else none

/-- Models ECMAScript `new Date(string)` (used at src/server.js lines 104,
110, 116, 122) on the date-only ISO format `YYYY-MM-DD`: a well-formed date
string yields `some t` where `t = (year * 100 + month) * 100 + day` is a
timestamp surrogate monotone in calendar order; every other list of
characters yields `none`, standing for the JavaScript `Invalid Date`
(a `NaN` time value). -/
def parseDateChars : List Char → Option Nat
  | [y1, y2, y3, y4, s1, m1, m2, s2, d1, d2] =>
    if s1 = '-' ∧ s2 = '-' then
      match digitVal y1, digitVal y2, digitVal y3, digitVal y4,
            digitVal m1, digitVal m2, digitVal d1, digitVal d2 with
      | some a, some b, some c, some d, some e, some g, some h, some i =>
        let y := ((a * 10 + b) * 10 + c) * 10 + d
        let mo := e * 10 + g
        let dy := h * 10 + i
        if 1 ≤ mo ∧ mo ≤ 12 ∧ 1 ≤ dy ∧ dy ≤ daysInMonth y mo then
          some ((y * 100 + mo) * 100 + dy)
        else none
      | _, _, _, _, _, _, _, _ => none
    else none
  | _ => none

/-- `new Date` on a string value. -/
def parseDate (s : String) : Option Nat := parseDateChars s.toList

/-- `new Date` applied to an optional string field of the filter:
`new Date(undefined)` is also an Invalid Date. -/
def jsDateO (s : Option String) : Option Nat := s.bind parseDate

/-- A `{ $gte: ..., $lte: ... }` range object as the resolver builds it for
`query.created_at` / `query.closed_at`. A bound that is present holds the
JavaScript date value it was set to, which may itself be the Invalid Date
(`none`). -/
structure DateRange where
  gte : Option (Option Nat) := none
  lte : Option (Option Nat) := none
deriving DecidableEq

/-- The MongoDB query object assembled by the `orders` resolver
(src/server.js lines 86-132): `status` holds a `$in` list, `client_name`
and `items_name` hold `$regex` patterns with the `i` option, and the two
date fields hold range objects. `items_name` is the `"items.name"` key. -/
structure MongoQuery where
  status : Option (List Status) := none
  client_name : Option String := none
  created_at : Option DateRange := none
  closed_at : Option DateRange := none
  items_name : Option String := none
deriving DecidableEq

/-- The JavaScript exception the resolver can throw: writing
`query.created_at.$lte` (or `query.closed_at.$lte`) when that property is
still `undefined` raises `TypeError` (src/server.js lines 109, 121). -/
inductive JsError where
  | typeError
deriving DecidableEq

/-- The resolver's handling of an end bound (src/server.js lines 108-112 and
120-124): when the bound string is truthy it assigns `$lte` on the existing
range object, throwing `TypeError` if no range object exists; when falsy it
leaves the field as it is. -/
def applyEndBound (cur : Option DateRange) (b : Option String) :
    Except JsError (Option DateRange) :=
  if jsTruthyStr b then
    match cur with
    | none => .error .typeError
    | some r => .ok (some { r with lte := some (jsDateO b) })
  else .ok cur

/-- The filter-to-query translation of the `orders` resolver
(src/server.js lines 85-132), field by field in source order. A `.error`
result is the resolver throwing. Note that the `status` guard is JavaScript
truthiness of an array, which holds for the empty array as well. -/
def buildQuery : Option FilterInput → Except JsError MongoQuery
  | none => .ok {}
  | some f =>
    let q : MongoQuery := {}
    let q := if f.status.isSome then { q with status := f.status } else q
    let q := if jsTruthyStr f.client_name then
        { q with client_name := f.client_name } else q
    let q := if jsTruthyStr f.created_at_start then
        { q with
          created_at := some (DateRange.mk (some (jsDateO f.created_at_start)) none) }
      else q
    match applyEndBound q.created_at f.created_at_end with
    | .error e => .error e
    | .ok ca =>
      let q := { q with created_at := ca }
      let q := if jsTruthyStr f.closed_at_start then
          { q with
            closed_at := some (DateRange.mk (some (jsDateO f.closed_at_start)) none) }
        else q
      match applyEndBound q.closed_at f.closed_at_end with
      | .error e => .error e
      | .ok cla =>
        let q := { q with closed_at := cla }
        let q := if jsTruthyStr f.item_name then
            { q with items_name := f.item_name } else q
        .ok q

/-- ASCII lowercasing of a character's code point, modelling the effect of
a case-insensitive (`$options: "i"`) match. -/
def lowerNat (c : Char) : Nat :=
  if 65 ≤ c.toNat ∧ c.toNat ≤ 90 then c.toNat + 32 else c.toNat

/-- Whether `pat` occurs as a contiguous run inside `l`. -/
def containsSeq [BEq α] (pat : List α) : List α → Bool
  | [] => pat.isEmpty
  | a :: as => pat.isPrefixOf (a :: as) || containsSeq pat as

/-- Modelled from the spec: the store's evaluation of a `$regex` constraint
with the `i` option on a plain pattern — "case-insensitive substring match"
(spec §3); the document store is assumed to "support field equality, regex,
range, and set-membership queries" (spec §1). -/
def substrCI (pat hay : String) : Bool :=
  containsSeq (pat.toList.map lowerNat) (hay.toList.map lowerNat)

/-- A single comparison of a stored date value against one bound of a range
object.  A bound holding the Invalid Date compares like `NaN`: false. -/
def geBound (bound : Option Nat) (v : Nat) : Bool :=
  match bound with
  | some b => b ≤ v
  | none => false

/-- As `geBound`, for the `$lte` side. -/
def leBound (bound : Option Nat) (v : Nat) : Bool :=
  match bound with
  | some b => v ≤ b
  | none => false

/-- Modelled from the spec: the store's evaluation of a range object on a
stored date value — inclusive bounds (spec §3); an absent side imposes no
constraint; a bound holding the Invalid Date matches no stored value. -/
def matchesRange (r : DateRange) (v : Nat) : Bool :=
  (match r.gte with
   | none => true
   | some jd => geBound jd v) &&
  (match r.lte with
   | none => true
   | some jd => leBound jd v)

/-- Modelled from the spec: the document store's evaluation of the query
object produced by the resolver on one stored order — conjunction of the
per-field constraints (spec §4.1): `$in` is set membership, `$regex` with
`i` is case-insensitive substring, the date fields are inclusive ranges
(a null `closed_at` satisfies no range constraint), and the `"items.name"`
constraint holds when at least one array element's `name` matches. -/
def matchesQuery (q : MongoQuery) (o : Order) : Bool :=
  (match q.status with
   | none => true
   | some l => l.contains o.status) &&
  (match q.client_name with
   | none => true
   | some pat => substrCI pat o.client_name) &&
  (match q.created_at with
   | none => true
   | some r => matchesRange r o.created_at) &&
  (match q.closed_at with
   | none => true
   | some r =>
     match o.closed_at with
     | none => false
     | some v => matchesRange r v) &&
  (match q.items_name with
   | none => true
   | some pat => o.items.any fun it => substrCI pat it.name)

/-- The backtick character, code point 96. -/
def tick : Char := Char.ofNat 96

/-- The newline character, code point 10. -/
def nlChar : Char := Char.ofNat 10

/-- The space character, code point 32. -/
def spaceChar : Char := Char.ofNat 32

/-- Replace every occurrence of `pat` by `rep`, scanning left to right and
continuing after each replacement without rescanning the substituted text,
as JavaScript `String.prototype.replace` with a global pattern of literal
characters does (src/server.js lines 205-208). -/
def replaceAll (pat rep : List Char) : List Char → List Char
  | [] => []
  | c :: cs =>
    if pat.isPrefixOf (c :: cs) && !pat.isEmpty then
      rep ++ replaceAll pat rep (cs.drop (pat.length - 1))
    else
      c :: replaceAll pat rep cs
termination_by s => s.length
decreasing_by
  all_goals simp [List.length_drop]
  omega

/-- JavaScript whitespace as `String.prototype.trim` strips it, restricted
to the ASCII range: space and the control characters tab through carriage
return. -/
def isWsChar (c : Char) : Bool :=
  c.toNat = 32 || (9 ≤ c.toNat && c.toNat ≤ 13)

/-- `String.prototype.trim`: drop whitespace from both ends
(src/server.js line 202). -/
def trimChars (s : List Char) : List Char :=
  ((s.dropWhile isWsChar).reverse.dropWhile isWsChar).reverse

/-- The characters of the tagged fence marker removed first. -/
def fenceTag : List Char := "```graphql".toList

/-- The characters of a bare triple-backtick fence marker. -/
def fence : List Char := "```".toList

/-- The sanitization pipeline of `generateGraphQLQuery`
(src/server.js lines 200-208), in source order: `trim` runs first, then the
global replacements of `"```graphql"` and of `"```"` by the empty string,
then of each newline by one space. -/
def sanitizeContent (content : List Char) : List Char :=
  replaceAll [nlChar] [spaceChar]
    (replaceAll fence []
      (replaceAll fenceTag [] (trimChars content)))

/-- The NL-to-Query Bridge `generateGraphQLQuery`
(src/server.js lines 171-215).  The axios call to the completion API
together with the extraction `response.data.choices[0].message.content` is
collapsed into its outcome `apiOutcome`: `.ok content` carries the
completion text, `.error` is any transport, API or response-shape failure
thrown inside the `try` block.  The surrounding `catch` returns `null`,
modelled as `none`; on success the sanitized text is returned. -/
def generateGraphQLQuery (apiOutcome : Except String (List Char)) :
    Option (List Char) :=
  match apiOutcome with
  | .error _ => none
  | .ok content => some (sanitizeContent content)

/-- JavaScript truthiness of the bridge's result as tested by
`if (!graphqlQuery)`: `null` and the empty string are falsy. -/
def jsTruthyChars : Option (List Char) → Bool
  | none => false
  | some l => !l.isEmpty

/-- The observable part of an Express response as the two JSON handlers
build it: the HTTP status and the fields of the JSON body that they set. -/
structure ApiResponse where
  status : Nat
  error : Option String := none
  graphqlQuery : Option (List Char) := none
  dataField : Option String := none
deriving DecidableEq

/-- The POST /generate-query handler (src/server.js lines 152-168) as a
pure function of the parsed body's `userInput` and of the bridge's result
for it.  The missing-input check runs before the bridge result is ever
consulted. -/
def handleGenerateQuery (userInput : Option String)
    (bridge : Option (List Char)) : ApiResponse :=
  if !(jsTruthyStr userInput) then
    { status := 400, error := some "User input is required" }
  else if !(jsTruthyChars bridge) then
    { status := 500, error := some "Failed to generate GraphQL query" }
  else
    { status := 200, graphqlQuery := bridge }

/-- The POST /fetch-orders handler (src/server.js lines 217-249).  `exec`
is the outcome of the axios self-call to the /graphql endpoint; a thrown
execution error is caught and mapped to a 500 response. -/
def handleFetchOrders (userInput : Option String)
    (bridge : Option (List Char)) (exec : Except String String) :
    ApiResponse :=
  if !(jsTruthyStr userInput) then
    { status := 400, error := some "User input is required" }
  else if !(jsTruthyChars bridge) then
    { status := 500, error := some "Failed to generate GraphQL query" }
  else
    match exec with
    | .error _ => { status := 500, error := some "Failed to fetch orders" }
    | .ok d => { status := 200, dataField := some d }

/-- A concrete stored order used to instantiate theorems on sample data. -/
def sampleOrder : Order where
  id := "ord1"
  client_name := "Acme Corp"
  code := 7
  status := Status.shipped
  created_at := 20240101
  closed_at := none
  shipping_address := none
  items := [{ sku := "SKU1", name := "Blue Widget", total_qty := 3, remaining_qty := 1 }]
  shipments := []

theorem jsTruthyStr_some_of_ne {s : String} (h : s ≠ "") :
    jsTruthyStr (some s) = true := by
  simp [jsTruthyStr, h]

theorem parseDate_empty : parseDate "" = none := rfl

theorem parseDate_ne_empty {s : String} {t : Nat} (h : parseDate s = some t) :
    s ≠ "" := by
  intro he
  rw [he, parseDate_empty] at h
  exact Option.noConfusion h

/-- Closed form of the translator on a present filter: it throws exactly
when an end bound is truthy while the matching start bound is falsy;
otherwise each field contributes its constraint independently. -/
theorem buildQuery_some_eq (f : FilterInput) :
    buildQuery (some f) =
      if jsTruthyStr f.created_at_end && !jsTruthyStr f.created_at_start then
        .error .typeError
      else if jsTruthyStr f.closed_at_end && !jsTruthyStr f.closed_at_start then
        .error .typeError
      else
        .ok
          (MongoQuery.mk
            f.status
            (if jsTruthyStr f.client_name then f.client_name else none)
            (if jsTruthyStr f.created_at_start then
              some (DateRange.mk (some (jsDateO f.created_at_start))
                (if jsTruthyStr f.created_at_end then
                  some (jsDateO f.created_at_end) else none))
             else none)
            (if jsTruthyStr f.closed_at_start then
              some (DateRange.mk (some (jsDateO f.closed_at_start))
                (if jsTruthyStr f.closed_at_end then
                  some (jsDateO f.closed_at_end) else none))
             else none)
            (if jsTruthyStr f.item_name then f.item_name else none)) := by
  cases hst : f.status <;>
  cases hcn : jsTruthyStr f.client_name <;>
  cases hcas : jsTruthyStr f.created_at_start <;>
  cases hcae : jsTruthyStr f.created_at_end <;>
  cases hcls : jsTruthyStr f.closed_at_start <;>
  cases hcle : jsTruthyStr f.closed_at_end <;>
  cases hit : jsTruthyStr f.item_name <;>
  simp [buildQuery, applyEndBound, hst, hcas, hcae, hcls, hcle, hcn, hit]

/-- C1: the translator does not survive an end bound given without its
start bound.  At a filter whose `created_at_end` (respectively
`closed_at_end`) is set while the corresponding start bound is absent, the
resolver throws `TypeError` instead of producing a valid `≤`-only
constraint — the code slip behind this claim. -/
theorem end_bound_without_start_throws :
    buildQuery (some { created_at_end := some "2024-01-01" }) =
      .error JsError.typeError ∧
    buildQuery (some { closed_at_end := some "2024-01-01" }) =
      .error JsError.typeError := by
  decide

/-- C2: at the unparseable bound `"not-a-date"` the translator raises no
error of any kind: it returns a query whose `created_at` lower bound holds
the Invalid Date, and under the store evaluation that predicate silently
matches no order — exactly the behavior the spec forbids. -/
theorem invalid_date_silent_always_false :
    buildQuery (some { created_at_start := some "not-a-date" }) =
      .ok { created_at := some (DateRange.mk (some none) none) } ∧
    ∀ o : Order,
      matchesQuery { created_at := some (DateRange.mk (some none) none) } o =
        false := by
  refine ⟨by decide, fun o => ?_⟩
  simp [matchesQuery, matchesRange, geBound]

theorem matches_false_of_created_range (q : MongoQuery) (ts te : Nat)
    (hc : q.created_at = some (DateRange.mk (some (some ts)) (some (some te))))
    (o : Order) (ho : o.created_at < ts ∨ te < o.created_at) :
    matchesQuery q o = false := by
  have hr : matchesRange (DateRange.mk (some (some ts)) (some (some te)))
      o.created_at = false := by
    rcases ho with h | h <;>
      simp [matchesRange, geBound, leBound, Nat.not_le.mpr h]
  simp [matchesQuery, hc, hr]

/-- C3: when both `created_at_start` and `created_at_end` are set to
parseable dates, the translation that succeeds carries both bounds merged
into one range object on `created_at`; the predicate rejects every order
whose `created_at` lies strictly outside `[start, end]`, and (when no other
filter field constrains the order) accepts orders sitting exactly on either
bound. -/
theorem created_at_range_merged
    (f : FilterInput) (ss se : String) (ts te : Nat) (q : MongoQuery)
    (h1 : f.created_at_start = some ss) (h2 : f.created_at_end = some se)
    (hts : parseDate ss = some ts) (hte : parseDate se = some te)
    (hq : buildQuery (some f) = .ok q) :
    q.created_at = some (DateRange.mk (some (some ts)) (some (some te))) ∧
    (∀ o : Order, o.created_at < ts ∨ te < o.created_at →
      matchesQuery q o = false) ∧
    (ts ≤ te → f.status = none → f.client_name = none → f.item_name = none →
      f.closed_at_start = none → f.closed_at_end = none →
      ∀ o : Order, o.created_at = ts ∨ o.created_at = te →
        matchesQuery q o = true) := by
  have hss' : jsTruthyStr (some ss) = true :=
    jsTruthyStr_some_of_ne (parseDate_ne_empty hts)
  have hse' : jsTruthyStr (some se) = true :=
    jsTruthyStr_some_of_ne (parseDate_ne_empty hte)
  rw [buildQuery_some_eq f, h1, h2] at hq
  cases hcls : jsTruthyStr f.closed_at_start <;>
    cases hcle : jsTruthyStr f.closed_at_end <;>
    simp [hss', hse', hcls, hcle, jsDateO, hts, hte] at hq
  all_goals subst hq
  all_goals
    refine ⟨rfl, fun o ho =>
      matches_false_of_created_range _ ts te rfl o ho, ?_⟩
  all_goals
    first
      | (intro hle hstn hcnn hitn hclsn hclen o ho
         rw [hclsn] at hcls
         exact Bool.noConfusion hcls)
      | (intro hle hstn hcnn hitn hclsn hclen o ho
         rcases ho with h | h <;>
           simp [matchesQuery, matchesRange, geBound, leBound, hstn, hcnn,
             hitn, h, hle])

/-- Witness for C3 at concrete data: the January-to-March range accepts an
order created exactly on the start bound and rejects one created after the
end bound. -/
theorem created_at_range_merged_witness :
    matchesQuery
      (MongoQuery.mk none none
        (some (DateRange.mk (some (some 20240101)) (some (some 20240305))))
        none none)
      sampleOrder = true ∧
    matchesQuery
      (MongoQuery.mk none none
        (some (DateRange.mk (some (some 20240101)) (some (some 20240305))))
        none none)
      { sampleOrder with created_at := 20240306 } = false := by
  constructor
  · exact
      (created_at_range_merged
        { created_at_start := some "2024-01-01",
          created_at_end := some "2024-03-05" }
        "2024-01-01" "2024-03-05" 20240101 20240305 _
        rfl rfl (by decide) (by decide) (by decide)).2.2
        (by decide) rfl rfl rfl rfl rfl sampleOrder (Or.inl rfl)
  · exact
      (created_at_range_merged
        { created_at_start := some "2024-01-01",
          created_at_end := some "2024-03-05" }
        "2024-01-01" "2024-03-05" 20240101 20240305 _
        rfl rfl (by decide) (by decide) (by decide)).2.1
        { sampleOrder with created_at := 20240306 } (Or.inr (by decide))

/-- C5: whenever the completion call fails — whatever the thrown error —
the bridge returns the failure marker `null` and raises nothing past its
boundary; surfacing the failure is left to the caller. -/
theorem bridge_failure_marker (msg : String) :
    generateGraphQLQuery (Except.error msg) = none := rfl

/-- C6: with no filter argument, and likewise with a filter none of whose
fields is set, the translator produces the empty query, and the empty
query's predicate matches every order. -/
theorem empty_filter_matches_every_order :
    buildQuery none = .ok {} ∧
    buildQuery (some {}) = .ok {} ∧
    ∀ o : Order, matchesQuery {} o = true := by
  refine ⟨rfl, by decide, fun o => ?_⟩
  simp [matchesQuery]

/-- C7: a filter carrying only `client_name` matches exactly the orders
whose `client_name` contains the pattern as a case-insensitive substring;
a filter carrying only `item_name` matches exactly the orders having at
least one item whose `name` so contains the pattern. -/
theorem name_filters_substring_ci (p : String) (hp : p ≠ "") :
    (buildQuery (some { client_name := some p }) =
        .ok { client_name := some p } ∧
      ∀ o : Order,
        matchesQuery { client_name := some p } o = substrCI p o.client_name) ∧
    (buildQuery (some { item_name := some p }) =
        .ok { items_name := some p } ∧
      ∀ o : Order,
        matchesQuery { items_name := some p } o =
          (o.items.any fun it => substrCI p it.name)) := by
  refine ⟨⟨?_, fun o => ?_⟩, ⟨?_, fun o => ?_⟩⟩
  · rw [buildQuery_some_eq]; simp [jsTruthyStr, hp]
  · simp [matchesQuery]
  · rw [buildQuery_some_eq]; simp [jsTruthyStr, hp]
  · simp [matchesQuery]

/-- Witness for C7: the filter string `"acme"` matches the client named
`"Acme Corp"` — case-insensitive and substring, not exact equality. -/
theorem name_filters_substring_ci_witness :
    matchesQuery { client_name := some "acme" } sampleOrder =
      substrCI "acme" "Acme Corp" ∧
    substrCI "acme" "Acme Corp" = true ∧
    "acme" ≠ "Acme Corp" := by
  refine ⟨((name_filters_substring_ci "acme" (by decide)).1.2 sampleOrder), ?_, ?_⟩
  · decide
  · decide

/-- C8: a filter carrying a status list matches exactly the orders whose
status is a member of that list. -/
theorem status_filter_set_membership (l : List Status) :
    buildQuery (some { status := some l }) = .ok { status := some l } ∧
    ∀ o : Order,
      (matchesQuery { status := some l } o = true ↔ o.status ∈ l) := by
  constructor
  · rw [buildQuery_some_eq]; simp [jsTruthyStr]
  · intro o; simp [matchesQuery, List.contains]

/-- Witness for C8 at the spec's example set: {shipped, cancelled} accepts
a shipped order and rejects an open one. -/
theorem status_filter_set_membership_witness :
    matchesQuery { status := some [Status.shipped, Status.cancelled] }
      sampleOrder = true ∧
    ¬ matchesQuery { status := some [Status.shipped, Status.cancelled] }
        { sampleOrder with status := Status.open_ } = true := by
  constructor
  · exact ((status_filter_set_membership _).2 sampleOrder).mpr (by decide)
  · intro h
    exact absurd (((status_filter_set_membership _).2 _).mp h) (by decide)

/-- C9: both JSON endpoints answer 400 with { error: "User input is
required" } when `userInput` is missing, independently of every other
input — i.e. before any work happens — and answer 500 with an error field
when the bridge returns its failure marker. -/
theorem http_handlers_error_paths :
    (∀ b, handleGenerateQuery none b =
      { status := 400, error := some "User input is required" }) ∧
    (∀ b e, handleFetchOrders none b e =
      { status := 400, error := some "User input is required" }) ∧
    (∀ u, jsTruthyStr u = true → handleGenerateQuery u none =
      { status := 500, error := some "Failed to generate GraphQL query" }) ∧
    (∀ u e, jsTruthyStr u = true → handleFetchOrders u none e =
      { status := 500, error := some "Failed to generate GraphQL query" }) := by
  refine ⟨fun b => rfl, fun b e => rfl, ?_, ?_⟩
  · intro u hu; simp [handleGenerateQuery, hu, jsTruthyChars]
  · intro u e hu; simp [handleFetchOrders, hu, jsTruthyChars]

/-- Witness for C9 on the spec's sample input with a failed bridge call. -/
theorem http_handlers_error_paths_witness :
    handleGenerateQuery (some "orders that are shipped") none =
      { status := 500, error := some "Failed to generate GraphQL query" } ∧
    handleFetchOrders (some "orders that are shipped") none
        (Except.error "transport") =
      { status := 500, error := some "Failed to generate GraphQL query" } :=
  ⟨http_handlers_error_paths.2.2.1 _ (by decide),
   http_handlers_error_paths.2.2.2 _ _ (by decide)⟩

/-- C10: a field present as the empty string is falsy in JavaScript, so
the translator treats it exactly as an absent field, for `client_name`,
`item_name` and all four date bounds; whereas `status` present as the
empty list is truthy, producing an `$in` over the empty set — a predicate
matching no order. -/
theorem empty_string_ignored_empty_status_matches_none :
    (∀ f : FilterInput,
      buildQuery (some { f with client_name := some "" }) =
        buildQuery (some { f with client_name := none }) ∧
      buildQuery (some { f with created_at_start := some "" }) =
        buildQuery (some { f with created_at_start := none }) ∧
      buildQuery (some { f with created_at_end := some "" }) =
        buildQuery (some { f with created_at_end := none }) ∧
      buildQuery (some { f with closed_at_start := some "" }) =
        buildQuery (some { f with closed_at_start := none }) ∧
      buildQuery (some { f with closed_at_end := some "" }) =
        buildQuery (some { f with closed_at_end := none }) ∧
      buildQuery (some { f with item_name := some "" }) =
        buildQuery (some { f with item_name := none })) ∧
    (∀ (f : FilterInput) (q : MongoQuery) (o : Order),
      f.status = some [] → buildQuery (some f) = .ok q →
      matchesQuery q o = false) := by
  constructor
  · intro f
    refine ⟨?_, ?_, ?_, ?_, ?_, ?_⟩ <;>
      rw [buildQuery_some_eq, buildQuery_some_eq] <;>
      simp [jsTruthyStr]
  · intro f q o hs hq
    rw [buildQuery_some_eq] at hq
    split at hq
    · exact absurd hq (by simp)
    · split at hq
      · exact absurd hq (by simp)
      · simp only [Except.ok.injEq] at hq
        subst hq
        simp [matchesQuery, hs, List.contains]

/-- Witness for C10: the empty status list rejects the sample order, and
an empty-string client_name leaves the query identical to an absent one. -/
theorem empty_string_ignored_witness :
    matchesQuery (MongoQuery.mk (some []) none none none none)
      sampleOrder = false ∧
    buildQuery (some { client_name := some "" }) =
      buildQuery (some { client_name := none }) := by
  constructor
  · exact
      (empty_string_ignored_empty_status_matches_none.2
        { status := some [] } _ sampleOrder rfl (by decide))
  · exact (empty_string_ignored_empty_status_matches_none.1
      { client_name := some "" }).1

theorem containsSeq_iff_infix [BEq α] [LawfulBEq α] (pat l : List α) :
    containsSeq pat l = true ↔ pat <:+: l := by
  induction l with
  | nil => simp [containsSeq]
  | cons a as ih =>
    simp [containsSeq, ih, List.infix_cons_iff, List.isPrefixOf_iff_prefix]

theorem fence_eq_ticks : fence = [tick, tick, tick] := rfl

theorem replaceAll_single_eq_map (a b : Char) (s : List Char) :
    replaceAll [a] [b] s = s.map fun c => if a = c then b else c := by
  induction s with
  | nil => simp [replaceAll]
  | cons c cs ih =>
    by_cases h : a = c
    · subst h
      simp [replaceAll, List.isPrefixOf, ih]
    · simp [replaceAll, List.isPrefixOf, h, ih]

theorem not_mem_replaceAll_newline (s : List Char) :
    nlChar ∉ replaceAll [nlChar] [spaceChar] s := by
  rw [replaceAll_single_eq_map]
  intro hmem
  rcases List.mem_map.mp hmem with ⟨c, _, hz⟩
  by_cases h : nlChar = c
  · rw [if_pos h] at hz
    exact absurd hz (by decide)
  · rw [if_neg h] at hz
    exact h hz.symm

theorem replaceAll_cons_pos (pat rep : List Char) (c : Char) (cs : List Char)
    (hg : List.isPrefixOf pat (c :: cs) = true) (hne : pat ≠ []) :
    replaceAll pat rep (c :: cs) =
      rep ++ replaceAll pat rep (cs.drop (pat.length - 1)) := by
  rw [replaceAll]
  simp [hg, hne]

theorem replaceAll_cons_neg (pat rep : List Char) (c : Char) (cs : List Char)
    (hg : List.isPrefixOf pat (c :: cs) = false) :
    replaceAll pat rep (c :: cs) = c :: replaceAll pat rep cs := by
  rw [replaceAll]
  simp [hg]

theorem prefix_tick1_of_tick2 (t : Char) (s : List Char)
    (h : [t, t] <+: s) : [t] <+: s := by
  cases s with
  | nil => simp at h
  | cons c cs =>
    rcases List.cons_prefix_cons.mp h with ⟨htc, _⟩
    exact List.cons_prefix_cons.mpr ⟨htc, List.nil_prefix⟩

theorem prefix_tick1_of_replaceAll (t : Char) (s : List Char)
    (h : [t] <+: replaceAll [t, t, t] [] s) : [t] <+: s := by
  cases s with
  | nil => simp [replaceAll] at h
  | cons c cs =>
    cases hguard : List.isPrefixOf [t, t, t] (c :: cs)
    · rw [replaceAll_cons_neg _ _ _ _ hguard] at h
      rcases List.cons_prefix_cons.mp h with ⟨htc, _⟩
      exact List.cons_prefix_cons.mpr ⟨htc, List.nil_prefix⟩
    · have hp := List.isPrefixOf_iff_prefix.mp hguard
      rcases List.cons_prefix_cons.mp hp with ⟨htc, _⟩
      exact List.cons_prefix_cons.mpr ⟨htc, List.nil_prefix⟩

theorem prefix_tick2_of_replaceAll (t : Char) (s : List Char)
    (h : [t, t] <+: replaceAll [t, t, t] [] s) : [t, t] <+: s := by
  cases s with
  | nil => simp [replaceAll] at h
  | cons c cs =>
    cases hguard : List.isPrefixOf [t, t, t] (c :: cs)
    · rw [replaceAll_cons_neg _ _ _ _ hguard] at h
      rcases List.cons_prefix_cons.mp h with ⟨htc, h2⟩
      exact List.cons_prefix_cons.mpr
        ⟨htc, prefix_tick1_of_replaceAll t cs h2⟩
    · have hp := List.isPrefixOf_iff_prefix.mp hguard
      rcases List.cons_prefix_cons.mp hp with ⟨htc, h2⟩
      exact List.cons_prefix_cons.mpr ⟨htc, prefix_tick1_of_tick2 t cs h2⟩

theorem fence_free_replaceAll_aux (t : Char) :
    ∀ (n : Nat) (s : List Char), s.length ≤ n →
      ¬ ([t, t, t] <:+: replaceAll [t, t, t] [] s) := by
  intro n
  induction n with
  | zero =>
    intro s hs
    have hnil : s = [] := List.eq_nil_of_length_eq_zero (Nat.le_zero.mp hs)
    subst hnil
    simp [replaceAll]
  | succ n ih =>
    intro s hs
    cases s with
    | nil => simp [replaceAll]
    | cons c cs =>
      simp only [List.length_cons, Nat.succ_le_succ_iff] at hs
      cases hguard : List.isPrefixOf [t, t, t] (c :: cs)
      · intro hinf
        rw [replaceAll_cons_neg _ _ _ _ hguard] at hinf
        rcases List.infix_cons_iff.mp hinf with hpre | hinf2
        · rcases List.cons_prefix_cons.mp hpre with ⟨htc, hpre2⟩
          have h2 : [t, t] <+: cs := prefix_tick2_of_replaceAll t cs hpre2
          have hyes : [t, t, t] <+: c :: cs :=
            List.cons_prefix_cons.mpr ⟨htc, h2⟩
          have := List.isPrefixOf_iff_prefix.mpr hyes
          rw [hguard] at this
          exact Bool.noConfusion this
        · exact ih cs hs hinf2
      · intro hinf
        have hlen : (cs.drop 2).length ≤ n := by
          simp [List.length_drop]
          omega
        rw [replaceAll_cons_pos _ _ _ _ hguard (by simp)] at hinf
        simp only [List.length_cons, List.nil_append] at hinf
        exact ih (cs.drop 2) hlen (by simpa using hinf)

theorem fence_free_replaceAll (s : List Char) :
    ¬ ([tick, tick, tick] <:+: replaceAll fence [] s) := by
  rw [fence_eq_ticks]
  exact fence_free_replaceAll_aux tick s.length s (Nat.le_refl _)

theorem nlToSpace_eq_tick {a : Char}
    (h : tick = if nlChar = a then spaceChar else a) : tick = a := by
  by_cases hn : nlChar = a
  · rw [if_pos hn] at h
    exact absurd h (by decide)
  · rwa [if_neg hn] at h

theorem nlToSpace_preserves_tick_prefix1 (r : List Char)
    (h : [tick] <+: r.map fun c => if nlChar = c then spaceChar else c) :
    [tick] <+: r := by
  cases r with
  | nil => simp at h
  | cons a as =>
    rw [List.map_cons] at h
    rcases List.cons_prefix_cons.mp h with ⟨ht, _⟩
    exact List.cons_prefix_cons.mpr ⟨nlToSpace_eq_tick ht, List.nil_prefix⟩

theorem nlToSpace_preserves_tick_prefix2 (r : List Char)
    (h : [tick, tick] <+: r.map fun c => if nlChar = c then spaceChar else c) :
    [tick, tick] <+: r := by
  cases r with
  | nil => simp at h
  | cons a as =>
    rw [List.map_cons] at h
    rcases List.cons_prefix_cons.mp h with ⟨ht, h2⟩
    exact List.cons_prefix_cons.mpr
      ⟨nlToSpace_eq_tick ht, nlToSpace_preserves_tick_prefix1 as h2⟩

theorem nlToSpace_preserves_fence_free (r : List Char)
    (h : ¬ ([tick, tick, tick] <:+: r)) :
    ¬ ([tick, tick, tick] <:+:
        r.map fun c => if nlChar = c then spaceChar else c) := by
  induction r with
  | nil => simp
  | cons a as ih =>
    intro hinf
    rw [List.map_cons] at hinf
    rcases List.infix_cons_iff.mp hinf with hpre | hinf2
    · rcases List.cons_prefix_cons.mp hpre with ⟨ht, h2m⟩
      have h2 := nlToSpace_preserves_tick_prefix2 as h2m
      exact h (List.infix_cons_iff.mpr
        (Or.inl (List.cons_prefix_cons.mpr ⟨nlToSpace_eq_tick ht, h2⟩)))
    · have has : ¬ ([tick, tick, tick] <:+: as) := fun hx =>
        h (List.infix_cons_iff.mpr (Or.inr hx))
      exact ih has hinf2

/-- C4 (amended): the bridge's sanitization of a successful completion
returns the text with every `"```graphql"` tag and every remaining triple
backtick stripped and every newline replaced by one space: the result is a
single line (no newline survives) containing no fence marker.  Because the
`trim` runs before these replacements, the claim's "no leading or trailing
whitespace" part does not hold — see the counterexample theorem. -/
theorem sanitize_single_line_no_fence (content : List Char) :
    generateGraphQLQuery (Except.ok content) = some (sanitizeContent content) ∧
    nlChar ∉ sanitizeContent content ∧
    ¬ (fence <:+: sanitizeContent content) := by
  refine ⟨rfl, ?_, ?_⟩
  · exact not_mem_replaceAll_newline _
  · show ¬ (fence <:+:
      replaceAll [nlChar] [spaceChar]
        (replaceAll fence [] (replaceAll fenceTag [] (trimChars content))))
    rw [replaceAll_single_eq_map, fence_eq_ticks]
    exact nlToSpace_preserves_fence_free _ (fence_free_replaceAll _)

/-- C4 counterexample: on the fenced two-line completion
`"```graphql\nquery orders\n```"` the sanitized output is
`" query orders "`, which still carries a leading and a trailing space —
`trim` runs before the fence and newline replacements, so the claim's "no
leading or trailing whitespace" guarantee fails on this input. -/
theorem sanitize_not_trimmed_counterexample :
    sanitizeContent ("```graphql\nquery orders\n```".toList) =
      (" query orders ").toList ∧
    trimChars (sanitizeContent ("```graphql\nquery orders\n```".toList)) ≠
      sanitizeContent ("```graphql\nquery orders\n```".toList) := by
  have h1 : sanitizeContent ("```graphql\nquery orders\n```".toList) =
      (" query orders ").toList := by
    simp [sanitizeContent, replaceAll, trimChars, fenceTag, fence, nlChar,
      spaceChar, isWsChar]
  refine ⟨h1, ?_⟩
  rw [h1]
  decide

end Lina
